import Mathlib

/-!
Shallow embedding of `scraper.py` (a 4chan thread image scraper) and a
verification of the specification's claims about it.

Sections:
* URL validation (`check_url`, scraper.py lines 148-151) and the two URL
  grammars (the one the spec states and the one the code's regex enforces);
* URL parsing (`parse_url`, lines 29-34);
* filename resolution in original-name mode (lines 55-69);
* the download decision, MD5 skip check and streaming transfer
  (lines 54-118 and 120-126), over an abstract filesystem and network;
* thread fetching (`get_thread`, lines 36-44), scraper construction
  (lines 12-27) and the exit-code logic of `main` (lines 154-183, 212-216).
-/

/- ### Character classes -/

/-- The regex character class `[a-z]` (ASCII lowercase letters only,
as in Python without `re.UNICODE` effects on explicit ranges). -/
def lowerb (c : Char) : Bool := decide ('a' ≤ c) && decide (c ≤ 'z')

/-- The regex character class `[0-9]`. -/
def digitb (c : Char) : Bool := decide ('0' ≤ c) && decide (c ≤ '9')

/- ### A deterministic matcher for the validator's regex

scraper.py line 149 compiles
  `^(https:\/\/boards.4channel.org\/|https:\/\/boards.4chan.org\/)[a-z]{1,5}\/thread\/[0-9]*$`
and line 150 runs `re.search` on it.  Notes on the regex's semantics,
which the matcher below reproduces exactly:

* the two dots in each host alternative are UNESCAPED, so each matches
  any single character except a newline;
* `^` anchors any match at position 0 (no MULTILINE flag), so `re.search`
  is `re.match` here;
* Python's `$` (no MULTILINE) matches at the end of the string or just
  before a single newline that ends the string;
* the id part is `[0-9]*`: it may be EMPTY;
* the match is deterministic: the two host alternatives cannot both match
  a prefix of the same string (they force different characters at index
  21: `e` for the `4channel` branch, `o` of `org/` for the `4chan`
  branch), greedy `[a-z]{1,5}` is followed by `/` which is not in
  `[a-z]`, and greedy `[0-9]*` is followed by `$`, which can never match
  at a position holding a digit.  So maximal-munch with no backtracking,
  as implemented below, is equivalent to the regex engine's search. -/

/-- Consume an exact literal from the front of the input, returning the
rest, or `none` when the literal is not a prefix. -/
def dropLit : List Char → List Char → Option (List Char)
  | [], s => some s
  | _ :: _, [] => none
  | l :: ls, c :: cs => if c = l then dropLit ls cs else none

/-- Consume one character matching the regex wildcard `.` (any character
except a newline). -/
def dropAny : List Char → Option (List Char)
  | [] => none
  | c :: cs => if c = '\n' then none else some cs

/-- The first host alternative `https:\/\/boards.4channel.org\/`
(dots unescaped). -/
def dropHost1 (s : List Char) : Option (List Char) :=
  (dropLit "https://boards".data s).bind fun t1 =>
  (dropAny t1).bind fun t2 =>
  (dropLit "4channel".data t2).bind fun t3 =>
  (dropAny t3).bind fun t4 =>
  dropLit "org/".data t4

/-- The second host alternative `https:\/\/boards.4chan.org\/`
(dots unescaped). -/
def dropHost2 (s : List Char) : Option (List Char) :=
  (dropLit "https://boards".data s).bind fun t1 =>
  (dropAny t1).bind fun t2 =>
  (dropLit "4chan".data t2).bind fun t3 =>
  (dropAny t3).bind fun t4 =>
  dropLit "org/".data t4

/-- The alternation of the two host alternatives, tried in the order the
regex writes them. -/
def dropHost (s : List Char) : Option (List Char) :=
  match dropHost1 s with
  | some r => some r
  | none => dropHost2 s

/-- The part of the regex after the host:
`[a-z]{1,5}\/thread\/[0-9]*$` with Python's `$` semantics. -/
def checkAfterHost (rest : List Char) : Bool :=
  let b := rest.takeWhile lowerb
  decide (1 ≤ b.length) && decide (b.length ≤ 5) &&
    (match dropLit "/thread/".data (rest.dropWhile lowerb) with
     | none => false
     | some r2 =>
       let rem := r2.dropWhile digitb
       decide (rem = []) || decide (rem = ['\n']))

/-- The whole regex match, on the character list of the URL. -/
def checkChars (l : List Char) : Bool :=
  match dropHost l with
  | none => false
  | some rest => checkAfterHost rest

/-- `check_url` (scraper.py lines 148-151): `True` iff `re.search` of the
pattern above succeeds on the URL. -/
def check_url (url : String) : Bool := checkChars url.data

/- ### The two grammars -/

/-- The grammar the SPEC states for accepted URLs:
`https://boards.<host-suffix>/<board>/thread/<id>` with host-suffix one
of `4chan.org`, `4channel.org`, board 1-5 lowercase letters, and id a
NON-EMPTY digit sequence. -/
def specURL (s : String) : Prop :=
  ∃ host board id : String,
    (host = "https://boards.4chan.org/" ∨ host = "https://boards.4channel.org/") ∧
    1 ≤ board.length ∧ board.length ≤ 5 ∧ board.data.all lowerb = true ∧
    1 ≤ id.length ∧ id.data.all digitb = true ∧
    s = host ++ board ++ "/thread/" ++ id

/-- The language the CODE's regex actually accepts, written as a grammar
(per the spec's words, but with the three relaxations the regex makes):
the two host dots are arbitrary non-newline characters, the id may be
empty, and a single trailing newline is allowed. -/
def codeURLChars (l : List Char) : Prop :=
  ∃ (c1 c2 : Char) (mid board id tl : List Char),
    (mid = "4chan".data ∨ mid = "4channel".data) ∧
    c1 ≠ '\n' ∧ c2 ≠ '\n' ∧
    1 ≤ board.length ∧ board.length ≤ 5 ∧ board.all lowerb = true ∧
    id.all digitb = true ∧ (tl = [] ∨ tl = ['\n']) ∧
    l = "https://boards".data ++ c1 :: (mid ++ c2 :: ("org/".data ++
          board ++ "/thread/".data ++ id ++ tl))

/-- `codeURLChars` lifted to strings. -/
def codeURL (s : String) : Prop := codeURLChars s.data


/- ### URL parsing (scraper.py lines 29-34) -/

/-- Split a character list at every `/`, exactly as Python's
`str.split("/")` does (adjacent separators give empty fields, the empty
string gives one empty field). -/
def splitOnSlash : List Char → List (List Char)
  | [] => [[]]
  | c :: rest =>
    let s := splitOnSlash rest
    if c = '/' then [] :: s
    else
      match s with
      | [] => [[c]]
      | h :: t => (c :: h) :: t

/-- `__parse_url` (lines 29-34): split the URL on `/` and take fields 3
and 5 as `(board, thread_id)`.  The source indexes `url[3]` and `url[5]`
directly; in the program they are only reached for URLs accepted by
`check_url`, which always have at least six fields, so the `""` default
of `getD` is never consulted on any reachable input. -/
def parse_url (url : String) : String × String :=
  let parts := (splitOnSlash url.data).map (fun l => String.mk l)
  (parts.getD 3 "", parts.getD 5 "")


/- ### Posts and filename resolution (scraper.py lines 54-69) -/

/-- An attachment-bearing post, with the fields `__download_image` reads:
`filename`, `ext`, `tim` and `md5` (a base64 string). -/
structure Image where
  filename : String
  ext : String
  tim : Nat
  md5 : String
deriving DecidableEq

/-- Lines 57-67, original-name mode: append `filename + ext` to the
ledger `downloaded_files`, then, if the candidate already occurs among
the earlier entries (`downloaded_files[:-1]`), rename the OUTPUT (not
the ledger entry) to `filename_<count-1><ext>` where `count` counts the
candidate in the ledger after the append.  Returns the resolved output
name and the new ledger. -/
def resolveName (ledger : List String) (image : Image) : String × List String :=
  let fn := image.filename ++ image.ext
  let files := ledger ++ [fn]
  if fn ∈ files.dropLast then
    (image.filename ++ "_" ++ toString (files.count fn - 1) ++ image.ext, files)
  else
    (fn, files)

/-- Lines 55-69: the filename for a post, in either mode.  In server-id
mode the name is `str(tim) + ext` and the ledger is untouched. -/
def targetName (keep : Bool) (ledger : List String) (image : Image) :
    String × List String :=
  if keep then resolveName ledger image
  else (toString image.tim ++ image.ext, ledger)

/-- Filename resolution over a whole sequence of posts, threading the
ledger through (the loop of `__get_images`, restricted to the naming
part): returns the list of resolved names and the final ledger. -/
def resolveRun (ledger : List String) (images : List Image) :
    List String × List String :=
  match images with
  | [] => ([], ledger)
  | im :: rest =>
    let r := resolveName ledger im
    let rr := resolveRun r.2 rest
    (r.1 :: rr.1, rr.2)

/- ### Base64 decoding and hex rendering (scraper.py line 76) -/

/-- The value of one base64 alphabet character. -/
def b64Val (c : Char) : Option Nat :=
  if 'A' ≤ c ∧ c ≤ 'Z' then some (c.toNat - 65)
  else if 'a' ≤ c ∧ c ≤ 'z' then some (c.toNat - 71)
  else if '0' ≤ c ∧ c ≤ '9' then some (c.toNat + 4)
  else if c = '+' then some 62
  else if c = '/' then some 63
  else none

/-- Decode canonical base64 four characters at a time (with `=` padding
only at the end), producing the byte list.  Models Python's
`base64.b64decode` on the well-formed input the 4chan API supplies
(`none` stands for the `binascii.Error` it raises otherwise). -/
def b64Groups : List Char → Option (List Nat)
  | [] => some []
  | a :: b :: c :: d :: rest =>
    match b64Val a, b64Val b with
    | some va, some vb =>
      if c = '=' ∧ d = '=' ∧ rest = [] then
        some [va * 4 + vb / 16]
      else
        match b64Val c with
        | some vc =>
          if d = '=' ∧ rest = [] then
            some [va * 4 + vb / 16, (vb % 16) * 16 + vc / 4]
          else
            match b64Val d with
            | some vd =>
              (b64Groups rest).map
                (fun r => (va * 4 + vb / 16) :: ((vb % 16) * 16 + vc / 4) ::
                          ((vc % 4) * 64 + vd) :: r)
            | none => none
        | none => none
    | _, _ => none
  | _ => none

/-- `base64.b64decode` on a string. -/
def b64decode (s : String) : Option (List Nat) := b64Groups s.data

/-- One lowercase hex digit. -/
def hexDigit (n : Nat) : Char :=
  if n < 10 then Char.ofNat (48 + n) else Char.ofNat (87 + n)

/-- `bytes.hex()`: the lowercase hex rendering of a byte list. -/
def bytesToHex (bs : List Nat) : String :=
  String.mk (bs.flatMap (fun b => [hexDigit (b / 16), hexDigit (b % 16)]))

/-- Line 76: `base64.b64decode(image["md5"]).hex()`. -/
def b64hex (s : String) : Option String := (b64decode s).map bytesToHex


/- ### The abstract filesystem and the MD5 check (scraper.py lines 120-126) -/

/-- The state of one path on disk: absent, present but unreadable (an
`open`/`read` on it raises `OSError`), or present with known bytes. -/
inductive FileSt
  | absent
  | unreadable
  | content (data : List Nat)
deriving DecidableEq

/-- The local filesystem, as a map from paths to file states. -/
abbrev Fs := String → FileSt

/-- `__md5check` (lines 120-126): read the whole file, hash it with the
supplied digest function (`hashlib.md5(...).hexdigest()` is kept
abstract as `md5hex`), compare with the expected hex string.  The
source has no exception handler: a failing read is an error
(`.error ()`), which the caller does not catch either. -/
def md5check (md5hex : List Nat → String) (fs : Fs) (path md5 : String) :
    Except Unit Bool :=
  match fs path with
  | .content data => .ok (md5hex data == md5)
  | _ => .error ()

/- ### Streaming transfer with interruption (scraper.py lines 87-118) -/

/-- The write loop of lines 91-112: the response body arrives as a list
of chunks, written one by one.  `interrupt = some k` models a
`KeyboardInterrupt` delivered during iteration `k` of the loop (before
chunk `k` is written); `none` models an undisturbed run.  Returns the
bytes the file holds on normal completion, or `.error ()` when the
interrupt fired inside the loop. -/
def streamLoop (chunks : List (List Nat)) (interrupt : Option Nat) :
    Except Unit (List Nat) :=
  match chunks, interrupt with
  | _, some 0 => .error ()
  | [], _ => .ok []
  | c :: cs, none => (streamLoop cs none).map (fun r => c ++ r)
  | c :: cs, some (k + 1) => (streamLoop cs (some k)).map (fun r => c ++ r)

/-- Errors `__download_image` can finish with. -/
inductive DlError
  | ioError
  | badBase64
  | interrupted
deriving DecidableEq

/-- The observable outcome of one `__download_image` call: the GET
requests issued for attachment bytes, the ledger, and the filesystem. -/
structure StepOut where
  requests : List String
  ledger : List String
  fs : Fs

/-- The attachment URL of line 82-85:
`https://i.4cdn.org/<board>/<tim><ext>`. -/
def imgURL (board : String) (image : Image) : String :=
  "https://i.4cdn.org/" ++ board ++ "/" ++ (toString image.tim ++ image.ext)

/-- `__download_image` (lines 54-118) over the abstract filesystem and a
network `net` mapping request URLs to chunked response bodies:
resolve the filename (lines 55-69); if the file exists (line 74), decode
the declared md5 (line 76) and compare (line 78): equal means skip with
no request (lines 79-80), a read failure propagates (no handler in
`__md5check` or around it); otherwise GET the attachment (lines 82-85)
and stream it to disk (lines 90-118), deleting the partial file and
re-raising when a `KeyboardInterrupt` arrives mid-stream.  The progress
bar (lines 99-112) is presentation only and is not modelled. -/
def download_image (md5hex : List Nat → String) (net : String → List (List Nat))
    (interrupt : Option Nat) (dest board : String) (keep : Bool)
    (ledger : List String) (fs : Fs) (image : Image) :
    StepOut × Except DlError Unit :=
  let r := targetName keep ledger image
  let path := dest ++ "/" ++ r.1
  let doDownload : StepOut × Except DlError Unit :=
    let url := imgURL board image
    match streamLoop (net url) interrupt with
    | .ok data =>
      ({ requests := [url], ledger := r.2,
         fs := fun p => if p = path then .content data else fs p }, .ok ())
    | .error _ =>
      ({ requests := [url], ledger := r.2,
         fs := fun p => if p = path then .absent else fs p }, .error .interrupted)
  match fs path with
  | .absent => doDownload
  | _ =>
    match b64hex image.md5 with
    | none => ({ requests := [], ledger := r.2, fs := fs }, .error .badBase64)
    | some m =>
      match md5check md5hex fs path m with
      | .error _ => ({ requests := [], ledger := r.2, fs := fs }, .error .ioError)
      | .ok true => ({ requests := [], ledger := r.2, fs := fs }, .ok ())
      | .ok false => doDownload

/- ### Thread fetching and scraper construction (scraper.py lines 12-44) -/

/-- The API URL of lines 37-40:
`https://a.4cdn.org/<board>/thread/<thread_id>.json`. -/
def apiURL (board tid : String) : String :=
  "https://a.4cdn.org/" ++ board ++ "/thread/" ++ tid ++ ".json"

/-- Errors thread fetching can finish with: `ThreadDoesNotExist`
(lines 140-146, carrying the board and thread id) or an uncaught
`json.JSONDecodeError` from `json.loads`. -/
inductive FetchErr
  | threadDoesNotExist (board tid : String)
  | jsonError (msg : String)
deriving DecidableEq

/-- `__get_thread` (lines 36-44) over a network `net` mapping URLs to
response bodies and a JSON reader `parse` (`json.loads`, abstract in its
result type `T`): an empty body raises `ThreadDoesNotExist(board, tid)`;
otherwise the body is parsed, a parse failure propagating unhandled. -/
def get_thread {T : Type} (net : String → String)
    (parse : String → Except String T) (board tid : String) :
    Except FetchErr T :=
  let body := net (apiURL board tid)
  if body.length = 0 then .error (.threadDoesNotExist board tid)
  else
    match parse body with
    | .ok t => .ok t
    | .error e => .error (.jsonError e)

/-- `Scraper.__init__` (lines 12-27) restricted to its externally visible
effects: parse the URL, build the destination `os.path.join(board, tid)`,
create the directory if absent (line 22-23, modelled on a list of
existing directories), then fetch the thread (line 27), which may raise.
Returns the directories after construction and the fetch outcome. -/
def scraperInit {T : Type} (net : String → String)
    (parse : String → Except String T) (dirs : List String) (url : String) :
    List String × Except FetchErr T :=
  let p := parse_url url
  let dest := p.1 ++ "/" ++ p.2
  let dirs2 := if dest ∈ dirs then dirs else dirs ++ [dest]
  (dirs2, get_thread net parse p.1 p.2)

/- ### Exit-code logic of main (scraper.py lines 154-183 and 212-216) -/

/-- Lines 158-170: validate every URL in order, collecting the valid
ones; any invalid URL is reported and sets the exit code to 1,
processing continuing.  Returns `(validURLs, exitcode)`. -/
def phase1 : List String → List String × Nat
  | [] => ([], 0)
  | url :: rest =>
    let r := phase1 rest
    if check_url url then (url :: r.1, r.2) else (r.1, 1)

/-- Lines 172-178: construct a scraper for each valid URL; a
`ThreadDoesNotExist` (the thread is not alive) is reported and sets the
exit code to 1, processing continuing.  Only the exit code is tracked;
`alive board tid` abstracts whether the API returns a non-empty body. -/
def phase2 (alive : String → String → Bool) : List String → Nat → Nat
  | [], ec => ec
  | url :: rest, ec =>
    let p := parse_url url
    phase2 alive rest (if alive p.1 p.2 then ec else 1)

/-- `main` (lines 154-183): both phases, then `exit(exitcode)`.  (The
`Scrape()` loop of lines 180-181 issues no further exit-code changes
when thread existence is stable, as `alive` models it.) -/
def scraper_main (alive : String → String → Bool) (urls : List String) : Nat :=
  let r := phase1 urls
  phase2 alive r.1 r.2

/-- Lines 212-216: `main` under the top-level handler; a
`KeyboardInterrupt` reaching the top level exits with status 130. -/
def scraper_top (alive : String → String → Bool) (urls : List String)
    (interrupted : Bool) : Nat :=
  if interrupted then 130 else scraper_main alive urls

/- ### Concrete fixtures, used to instantiate the theorems -/

/-- A network serving every URL a two-chunk body `[1], [2]`. -/
def wNet : String → List (List Nat) := fun _ => [[1], [2]]

/-- A post with server id 5, extension `.png` and an all-zero md5
(`AAAAAAAAAAAAAAAAAAAAAA==` is the base64 of sixteen zero bytes). -/
def wImg : Image :=
  { filename := "x", ext := ".png", tim := 5, md5 := "AAAAAAAAAAAAAAAAAAAAAA==" }

/-- A filesystem holding `g/5.png` with content `[9]`. -/
def wFsHave : Fs := fun p => if p = "g/5.png" then FileSt.content [9] else FileSt.absent

/-- A filesystem where `g/5.png` exists but cannot be read. -/
def wFsBad : Fs := fun p => if p = "g/5.png" then FileSt.unreadable else FileSt.absent

/-- An empty filesystem. -/
def wFsNone : Fs := fun _ => FileSt.absent

/-- The hex digest of sixteen zero bytes (what `wImg.md5` decodes to). -/
def hexZeros : String := "00000000000000000000000000000000"

/-- A digest function that hashes everything to `hexZeros`. -/
def md5Zeros : List Nat → String := fun _ => hexZeros

/-- A digest function that hashes everything to `"ff"`. -/
def md5FF : List Nat → String := fun _ => "ff"

/- ### Supporting lemmas for the URL matcher -/

theorem dropLit_eq_some (lit : List Char) :
    ∀ s r, dropLit lit s = some r ↔ s = lit ++ r := by
  induction lit with
  | nil => intro s r; simp [dropLit]
  | cons l ls ih =>
    intro s r
    cases s with
    | nil => simp [dropLit]
    | cons c cs =>
      by_cases h : c = l
      · subst h; simp [dropLit, ih]
      · simp [dropLit, h, Ne.symm h]

theorem dropAny_eq_some (s r : List Char) :
    dropAny s = some r ↔ ∃ c, c ≠ '\n' ∧ s = c :: r := by
  cases s with
  | nil => simp [dropAny]
  | cons c cs =>
    by_cases h : c = '\n'
    · subst h
      simp only [dropAny, if_pos rfl]
      constructor
      · intro hh; exact absurd hh (by simp)
      · rintro ⟨c2, hc2, heq⟩
        rw [List.cons.injEq] at heq
        exact absurd heq.1.symm hc2
    · simp only [dropAny, if_neg h, Option.some.injEq]
      constructor
      · rintro rfl; exact ⟨c, h, rfl⟩
      · rintro ⟨c2, hc2, heq⟩
        rw [List.cons.injEq] at heq
        exact heq.2

theorem dropHost1_eq_some (s r : List Char) :
    dropHost1 s = some r ↔ ∃ c1 c2, c1 ≠ '\n' ∧ c2 ≠ '\n' ∧
      s = "https://boards".data ++ c1 :: ("4channel".data ++ c2 :: ("org/".data ++ r)) := by
  simp only [dropHost1, Option.bind_eq_some, dropLit_eq_some, dropAny_eq_some]
  constructor
  · rintro ⟨t1, rfl, t2, ⟨c1, hc1, rfl⟩, t3, rfl, t4, ⟨c2, hc2, rfl⟩, rfl⟩
    exact ⟨c1, c2, hc1, hc2, rfl⟩
  · rintro ⟨c1, c2, hc1, hc2, rfl⟩
    exact ⟨_, rfl, _, ⟨c1, hc1, rfl⟩, _, rfl, _, ⟨c2, hc2, rfl⟩, rfl⟩

theorem dropHost2_eq_some (s r : List Char) :
    dropHost2 s = some r ↔ ∃ c1 c2, c1 ≠ '\n' ∧ c2 ≠ '\n' ∧
      s = "https://boards".data ++ c1 :: ("4chan".data ++ c2 :: ("org/".data ++ r)) := by
  simp only [dropHost2, Option.bind_eq_some, dropLit_eq_some, dropAny_eq_some]
  constructor
  · rintro ⟨t1, rfl, t2, ⟨c1, hc1, rfl⟩, t3, rfl, t4, ⟨c2, hc2, rfl⟩, rfl⟩
    exact ⟨c1, c2, hc1, hc2, rfl⟩
  · rintro ⟨c1, c2, hc1, hc2, rfl⟩
    exact ⟨_, rfl, _, ⟨c1, hc1, rfl⟩, _, rfl, _, ⟨c2, hc2, rfl⟩, rfl⟩

theorem dropHost_eq_some (s r : List Char) :
    dropHost s = some r ↔
      dropHost1 s = some r ∨ (dropHost1 s = none ∧ dropHost2 s = some r) := by
  unfold dropHost
  cases h : dropHost1 s <;> simp [h]

theorem takeWhile_append_eq (p : Char → Bool) (a b : List Char)
    (ha : a.all p = true) (hb : ∀ c cs, b = c :: cs → p c = false) :
    (a ++ b).takeWhile p = a ∧ (a ++ b).dropWhile p = b := by
  induction a with
  | nil =>
    simp only [List.nil_append]
    cases b with
    | nil => exact ⟨rfl, rfl⟩
    | cons c cs =>
      have hc := hb c cs rfl
      constructor
      · simp [List.takeWhile_cons, hc]
      · simp [List.dropWhile_cons, hc]
  | cons x xs ih =>
    simp only [List.all_cons, Bool.and_eq_true] at ha
    have h2 := ih ha.2
    constructor
    · simp [List.cons_append, List.takeWhile_cons, ha.1, h2.1]
    · simp [List.cons_append, List.dropWhile_cons, ha.1, h2.2]

theorem all_takeWhile (p : Char → Bool) (l : List Char) :
    (l.takeWhile p).all p = true := by
  induction l with
  | nil => rfl
  | cons x xs ih =>
    rw [List.takeWhile_cons]
    cases h : p x with
    | false => rfl
    | true => simp [h, ih]

/-- In the `4chan` branch the first alternative of the regex can never
match: after `https://boards`, one wildcard and `4chan`, the `4channel`
literal would need `nel` where the string holds one wildcard character
followed by `org/`. -/
theorem dropHost1_on_chan (c1 c2 : Char) (rest : List Char) :
    dropHost1 ("https://boards".data ++ c1 ::
      ("4chan".data ++ c2 :: ("org/".data ++ rest))) = none := by
  cases h : dropHost1 ("https://boards".data ++ c1 ::
      ("4chan".data ++ c2 :: ("org/".data ++ rest))) with
  | none => rfl
  | some r =>
    rw [dropHost1_eq_some] at h
    obtain ⟨d1, d2, hd1, hd2, heq⟩ := h
    rw [List.append_cancel_left_eq, List.cons.injEq] at heq
    -- the tails disagree at the character after `4chan`: `n` versus `o`
    have := heq.2
    rw [show ("4channel".data ++ d2 :: ("org/".data ++ r)) =
          '4' :: 'c' :: 'h' :: 'a' :: 'n' :: 'n' :: 'e' ::
            'l' :: d2 :: ("org/".data ++ r) from rfl,
        show ("4chan".data ++ c2 :: ("org/".data ++ rest)) =
          '4' :: 'c' :: 'h' :: 'a' :: 'n' :: c2 :: 'o' :: 'r' ::
            'g' :: '/' :: rest from rfl] at this
    simp only [List.cons.injEq] at this
    exact absurd this.2.2.2.2.2.2.1.symm (by decide)

theorem checkAfterHost_true (board id tl : List Char)
    (hb1 : 1 ≤ board.length) (hb5 : board.length ≤ 5)
    (hball : board.all lowerb = true) (hidall : id.all digitb = true)
    (htl : tl = [] ∨ tl = ['\n']) :
    checkAfterHost (board ++ ("/thread/".data ++ (id ++ tl))) = true := by
  have hsplit := takeWhile_append_eq lowerb board ("/thread/".data ++ (id ++ tl)) hball
    (by
      intro c cs heq
      rw [show ("/thread/".data ++ (id ++ tl)) =
            '/' :: ("thread/".data ++ (id ++ tl)) from rfl] at heq
      rw [List.cons.injEq] at heq
      rw [← heq.1]
      decide)
  have hid := takeWhile_append_eq digitb id tl hidall
    (by
      intro c cs heq
      rcases htl with rfl | rfl
      · exact absurd heq (by simp)
      · rw [List.cons.injEq] at heq
        rw [← heq.1]
        decide)
  have hdl : dropLit "/thread/".data ("/thread/".data ++ (id ++ tl)) =
      some (id ++ tl) := (dropLit_eq_some _ _ _).mpr rfl
  simp only [checkAfterHost, hsplit.1, hsplit.2, hdl, hid.2]
  rcases htl with rfl | rfl <;> simp [hb1, hb5]

theorem checkAfterHost_inv (rest : List Char) (h : checkAfterHost rest = true) :
    ∃ board id tl, 1 ≤ board.length ∧ board.length ≤ 5 ∧
      board.all lowerb = true ∧ id.all digitb = true ∧
      (tl = [] ∨ tl = ['\n']) ∧
      rest = board ++ ("/thread/".data ++ (id ++ tl)) := by
  cases hd : dropLit "/thread/".data (rest.dropWhile lowerb) with
  | none =>
    rw [checkAfterHost] at h
    rw [hd] at h
    simp at h
  | some r2 =>
    rw [checkAfterHost] at h
    rw [hd] at h
    simp only [Bool.and_eq_true, Bool.or_eq_true, decide_eq_true_eq] at h
    refine ⟨rest.takeWhile lowerb, r2.takeWhile digitb, r2.dropWhile digitb,
      h.1.1, h.1.2, all_takeWhile lowerb rest, all_takeWhile digitb r2, h.2, ?_⟩
    calc rest = List.takeWhile lowerb rest ++ List.dropWhile lowerb rest :=
          (List.takeWhile_append_dropWhile (p := lowerb) (l := rest)).symm
      _ = List.takeWhile lowerb rest ++ ("/thread/".data ++ r2) := by
          rw [(dropLit_eq_some _ _ _).mp hd]
      _ = List.takeWhile lowerb rest ++ ("/thread/".data ++
            (List.takeWhile digitb r2 ++ List.dropWhile digitb r2)) := by
          rw [List.takeWhile_append_dropWhile]

theorem checkChars_iff (l : List Char) : checkChars l = true ↔ codeURLChars l := by
  constructor
  · intro h
    cases hh : dropHost l with
    | none =>
      rw [checkChars, hh] at h
      simp at h
    | some rest =>
      rw [checkChars, hh] at h
      obtain ⟨board, id, tl, hb1, hb5, hball, hidall, htl, hrest⟩ :=
        checkAfterHost_inv rest h
      rw [dropHost_eq_some] at hh
      rcases hh with h1 | ⟨h1none, h2⟩
      · rw [dropHost1_eq_some] at h1
        obtain ⟨c1, c2, hc1, hc2, rfl⟩ := h1
        exact ⟨c1, c2, "4channel".data, board, id, tl, Or.inr rfl, hc1, hc2,
          hb1, hb5, hball, hidall, htl, by rw [hrest]; simp [List.append_assoc]⟩
      · rw [dropHost2_eq_some] at h2
        obtain ⟨c1, c2, hc1, hc2, rfl⟩ := h2
        exact ⟨c1, c2, "4chan".data, board, id, tl, Or.inl rfl, hc1, hc2,
          hb1, hb5, hball, hidall, htl, by rw [hrest]; simp [List.append_assoc]⟩
  · rintro ⟨c1, c2, mid, board, id, tl, hmid, hc1, hc2, hb1, hb5, hball, hidall, htl, rfl⟩
    have hafter := checkAfterHost_true board id tl hb1 hb5 hball hidall htl
    rcases hmid with rfl | rfl
    · have heq : "https://boards".data ++ c1 :: ("4chan".data ++ c2 ::
          ("org/".data ++ board ++ "/thread/".data ++ id ++ tl)) =
          "https://boards".data ++ c1 :: ("4chan".data ++ c2 ::
          ("org/".data ++ (board ++ ("/thread/".data ++ (id ++ tl))))) := by
        simp [List.append_assoc]
      rw [heq]
      have hd : dropHost ("https://boards".data ++ c1 :: ("4chan".data ++ c2 ::
          ("org/".data ++ (board ++ ("/thread/".data ++ (id ++ tl)))))) =
          some (board ++ ("/thread/".data ++ (id ++ tl))) := by
        rw [dropHost, dropHost1_on_chan]
        exact (dropHost2_eq_some _ _).mpr ⟨c1, c2, hc1, hc2, rfl⟩
      rw [checkChars, hd]
      exact hafter
    · have heq : "https://boards".data ++ c1 :: ("4channel".data ++ c2 ::
          ("org/".data ++ board ++ "/thread/".data ++ id ++ tl)) =
          "https://boards".data ++ c1 :: ("4channel".data ++ c2 ::
          ("org/".data ++ (board ++ ("/thread/".data ++ (id ++ tl))))) := by
        simp [List.append_assoc]
      rw [heq]
      have hd : dropHost ("https://boards".data ++ c1 :: ("4channel".data ++ c2 ::
          ("org/".data ++ (board ++ ("/thread/".data ++ (id ++ tl)))))) =
          some (board ++ ("/thread/".data ++ (id ++ tl))) := by
        rw [dropHost, (dropHost1_eq_some _ _).mpr ⟨c1, c2, hc1, hc2, rfl⟩]
      rw [checkChars, hd]
      exact hafter

/-- Every string of the spec's grammar is in the language the code
accepts (the relaxations only enlarge the language). -/
theorem specURL_codeURL (s : String) (h : specURL s) : codeURL s := by
  obtain ⟨host, board, id, hhost, hb1, hb5, hball, hid1, hidall, rfl⟩ := h
  rcases hhost with rfl | rfl
  · refine ⟨'.', '.', "4chan".data, board.data, id.data, [],
      Or.inl rfl, by decide, by decide, hb1, hb5, hball, hidall, Or.inl rfl, ?_⟩
    show ("https://boards.4chan.org/" ++ board ++ "/thread/" ++ id).data = _
    simp [String.data_append, List.append_assoc]
  · refine ⟨'.', '.', "4channel".data, board.data, id.data, [],
      Or.inr rfl, by decide, by decide, hb1, hb5, hball, hidall, Or.inl rfl, ?_⟩
    show ("https://boards.4channel.org/" ++ board ++ "/thread/" ++ id).data = _
    simp [String.data_append, List.append_assoc]

/- ### Claim C1 -/

/-- Claim C1, counterexample: the claim says the validator returns true
iff the string matches the spec grammar (id non-empty).  But the regex's
id part is `[0-9]*`, so the code accepts this URL with an EMPTY id while
the spec grammar rejects it (any grammar match would need length at
least 35, the string has 34 characters). -/
theorem claimC1_counterexample :
    check_url "https://boards.4chan.org/g/thread/" = true ∧
    ¬ specURL "https://boards.4chan.org/g/thread/" := by
  constructor
  · decide
  · rintro ⟨host, board, id, hhost, hb1, hb5, hball, hid1, hidall, heq⟩
    have hlen := congrArg String.length heq
    simp only [String.length_append] at hlen
    rw [show ("https://boards.4chan.org/g/thread/").length = 34 from rfl] at hlen
    rcases hhost with rfl | rfl
    · rw [show ("https://boards.4chan.org/").length = 25 from rfl,
          show ("/thread/").length = 8 from rfl] at hlen
      omega
    · rw [show ("https://boards.4channel.org/").length = 28 from rfl,
          show ("/thread/").length = 8 from rfl] at hlen
      omega

/-- Claim C1, amended: `check_url` returns true iff the string matches
the RELAXED grammar `codeURL`, in which the two host dots are arbitrary
non-newline characters (the regex leaves them unescaped), the id may be
empty (`[0-9]*`, not `[0-9]+`), and one trailing newline is accepted
(Python `$`); every string of the spec's grammar is still accepted. -/
theorem claimC1 :
    (∀ s, check_url s = true ↔ codeURL s) ∧
    (∀ s, specURL s → check_url s = true) := by
  refine ⟨fun s => checkChars_iff s.data, fun s hs => ?_⟩
  exact (checkChars_iff s.data).mpr (specURL_codeURL s hs)

/-- Witness for claim C1's amended theorem at a concrete URL. -/
theorem claimC1_witness :
    specURL "https://boards.4channel.org/g/thread/51971506" ∧
    check_url "https://boards.4channel.org/g/thread/51971506" = true ∧
    codeURL "https://boards.4channel.org/g/thread/51971506" := by
  have hspec : specURL "https://boards.4channel.org/g/thread/51971506" :=
    ⟨"https://boards.4channel.org/", "g", "51971506", Or.inr rfl,
      by decide, by decide, by decide, by decide, by decide, by decide⟩
  exact ⟨hspec, claimC1.2 _ hspec, (claimC1.1 _).mp (claimC1.2 _ hspec)⟩

/- ### Claims C3, C4, C10: filename resolution -/

/-- Three identical posts named `pic` with extension `.png`. -/
def picPng : Image := { filename := "pic", ext := ".png", tim := 0, md5 := "" }

/-- A post whose original name is already `pic_1`. -/
def pic1Png : Image := { filename := "pic_1", ext := ".png", tim := 0, md5 := "" }

/-- Claim C3: three consecutive `pic`/`.png` posts resolve to `pic.png`,
`pic_1.png`, `pic_2.png`; and in general a candidate already in the
ledger resolves to `<name>_<k>` where `k` is the count of the name in
the ledger after appending the candidate, minus one. -/
theorem claimC3 :
    (resolveRun [] [picPng, picPng, picPng]).1 = ["pic.png", "pic_1.png", "pic_2.png"] ∧
    ∀ (ledger : List String) (im : Image),
      (im.filename ++ im.ext) ∈ ledger →
      (resolveName ledger im).1 =
        im.filename ++ "_" ++
          toString ((ledger ++ [im.filename ++ im.ext]).count (im.filename ++ im.ext) - 1) ++
          im.ext := by
  constructor
  · decide
  · intro ledger im hmem
    simp only [resolveName]
    rw [List.dropLast_concat, if_pos hmem]

/-- Witness for claim C3's general part: a second `pic.png` resolves to
`pic_1.png`. -/
theorem claimC3_witness :
    ("pic.png" : String) ∈ ["pic.png"] ∧
    (resolveName ["pic.png"] picPng).1 = "pic_1.png" := by
  refine ⟨by decide, ?_⟩
  rw [claimC3.2 ["pic.png"] picPng (by decide)]
  decide

/-- Claim C4, counterexample: resolving two `pic`/`.png` posts assigns
`pic.png` then `pic_1.png`, but the ledger holds `pic.png` twice — the
UNSUFFIXED candidate is appended (scraper.py line 59, before the rename
on lines 63-67), so the ledger is NOT the sequence of assigned names. -/
theorem claimC4_counterexample :
    (resolveRun [] [picPng, picPng]).1 = ["pic.png", "pic_1.png"] ∧
    (resolveRun [] [picPng, picPng]).2 = ["pic.png", "pic.png"] ∧
    (resolveRun [] [picPng, picPng]).2 ≠ (resolveRun [] [picPng, picPng]).1 := by
  decide

/-- Claim C4, amended: the name appended to the ledger is always the
unsuffixed candidate `filename + ext`; after any run the ledger equals
the prior ledger followed by the sequence of CANDIDATE names (not the
assigned names, which may carry suffixes). -/
theorem claimC4 : ∀ (ledger : List String) (images : List Image),
    (resolveRun ledger images).2 =
      ledger ++ images.map (fun im => im.filename ++ im.ext) := by
  intro ledger images
  induction images generalizing ledger with
  | nil => simp [resolveRun]
  | cons im rest ih =>
    have h2 : (resolveName ledger im).2 = ledger ++ [im.filename ++ im.ext] := by
      simp only [resolveName]
      split <;> rfl
    simp only [resolveRun]
    rw [h2, ih]
    simp [List.append_assoc]

/-- Claim C10: with inputs named `pic`, `pic_1`, `pic` the resolver
assigns `pic_1.png` twice — the ledger records unsuffixed candidates, so
a suffixed output is never checked against later candidates. -/
theorem claimC10 :
    (resolveRun [] [picPng, pic1Png, picPng]).1 = ["pic.png", "pic_1.png", "pic_1.png"] ∧
    ¬ (resolveRun [] [picPng, pic1Png, picPng]).1.Nodup := by
  decide

/- ### Supporting lemmas for the download step -/

theorem streamLoop_none (chunks : List (List Nat)) :
    streamLoop chunks none = .ok chunks.flatten := by
  induction chunks with
  | nil => rfl
  | cons c cs ih => simp [streamLoop, ih, Except.map, List.flatten]

theorem streamLoop_interrupt (chunks : List (List Nat)) :
    ∀ k, k ≤ chunks.length → streamLoop chunks (some k) = .error () := by
  induction chunks with
  | nil =>
    intro k hk
    have : k = 0 := Nat.le_zero.mp hk
    subst this
    rfl
  | cons c cs ih =>
    intro k hk
    cases k with
    | zero => rfl
    | succ k =>
      have : streamLoop cs (some k) = .error () :=
        ih k (Nat.succ_le_succ_iff.mp hk)
      simp [streamLoop, this, Except.map]

/- ### Claim C2 -/

/-- Claim C2: when the target file already exists, an on-disk digest
equal to the declared md5 (base64 decoded to hex) means the step skips:
no request, filesystem untouched; a differing digest means exactly one
GET for the attachment and the file is overwritten with the response
bytes. -/
theorem claimC2 :
    ∀ (md5hex : List Nat → String) (net : String → List (List Nat))
      (dest board : String) (keep : Bool) (ledger : List String) (fs : Fs)
      (image : Image) (data : List Nat) (m : String),
      fs (dest ++ "/" ++ (targetName keep ledger image).1) = .content data →
      b64hex image.md5 = some m →
      ((md5hex data = m →
          download_image md5hex net none dest board keep ledger fs image =
            ({ requests := [], ledger := (targetName keep ledger image).2, fs := fs },
              .ok ())) ∧
       (md5hex data ≠ m →
          (download_image md5hex net none dest board keep ledger fs image).1.requests =
              [imgURL board image] ∧
          (download_image md5hex net none dest board keep ledger fs image).1.fs
              (dest ++ "/" ++ (targetName keep ledger image).1) =
            .content (net (imgURL board image)).flatten ∧
          (download_image md5hex net none dest board keep ledger fs image).2 = .ok ())) := by
  intro md5hex net dest board keep ledger fs image data m hfs hb64
  constructor
  · intro he
    have hbeq : (md5hex data == m) = true := beq_iff_eq.mpr he
    simp [download_image, md5check, hfs, hb64, hbeq]
  · intro hne
    have hbeq : (md5hex data == m) = false := by
      rw [beq_eq_false_iff_ne]
      exact hne
    simp [download_image, md5check, hfs, hb64, hbeq, streamLoop_none]

/-- Witness for claim C2: both branches at a concrete filesystem, post
and two-chunk network response. -/
theorem claimC2_witness :
    ((download_image md5Zeros wNet none "g" "g" false [] wFsHave wImg).1.requests = [] ∧
     (download_image md5Zeros wNet none "g" "g" false [] wFsHave wImg).2 = .ok ()) ∧
    ((download_image md5FF wNet none "g" "g" false [] wFsHave wImg).1.requests =
        ["https://i.4cdn.org/g/5.png"] ∧
     (download_image md5FF wNet none "g" "g" false [] wFsHave wImg).1.fs "g/5.png" =
        FileSt.content [1, 2] ∧
     (download_image md5FF wNet none "g" "g" false [] wFsHave wImg).2 = .ok ()) := by
  have h1 := claimC2 md5Zeros wNet "g" "g" false [] wFsHave wImg [9] hexZeros
    (by decide) (by decide)
  have h2 := claimC2 md5FF wNet "g" "g" false [] wFsHave wImg [9] hexZeros
    (by decide) (by decide)
  have e1 := h1.1 rfl
  have e2 := h2.2 (by decide)
  exact ⟨⟨by rw [e1], by rw [e1]⟩, e2.1, e2.2.1, e2.2.2⟩

/- ### Claim C5 -/

/-- Claim C5, counterexample: the claim says a failure reading the
existing file falls through to re-download without propagating an error.
But `__md5check` (lines 120-126) has no exception handler and neither
does its caller: on a concrete filesystem where the target exists but
cannot be read, the step finishes with the propagated read error and
issues NO download request. -/
theorem claimC5_counterexample :
    (download_image md5Zeros wNet none "g" "g" false [] wFsBad wImg).2 =
      .error .ioError ∧
    (download_image md5Zeros wNet none "g" "g" false [] wFsBad wImg).1.requests = [] := by
  constructor <;> rfl

/-- Claim C5, amended: with the file existing, an on-disk digest unequal
to the expected md5 falls through to re-download; but a failure reading
the existing file PROPAGATES as an error — the step stops without
issuing any download request, rather than proceeding to download. -/
theorem claimC5 :
    ∀ (md5hex : List Nat → String) (net : String → List (List Nat))
      (dest board : String) (keep : Bool) (ledger : List String) (fs : Fs)
      (image : Image) (m : String),
      b64hex image.md5 = some m →
      ((fs (dest ++ "/" ++ (targetName keep ledger image).1) = .unreadable →
          download_image md5hex net none dest board keep ledger fs image =
            ({ requests := [], ledger := (targetName keep ledger image).2, fs := fs },
              .error .ioError)) ∧
       (∀ data, fs (dest ++ "/" ++ (targetName keep ledger image).1) = .content data →
          md5hex data ≠ m →
          (download_image md5hex net none dest board keep ledger fs image).1.requests =
            [imgURL board image] ∧
          (download_image md5hex net none dest board keep ledger fs image).2 = .ok ())) := by
  intro md5hex net dest board keep ledger fs image m hb64
  constructor
  · intro hfs
    simp [download_image, md5check, hfs, hb64]
  · intro data hfs hne
    have hbeq : (md5hex data == m) = false := by
      rw [beq_eq_false_iff_ne]
      exact hne
    simp [download_image, md5check, hfs, hb64, hbeq, streamLoop_none]

/-- Witness for claim C5's amended theorem: the unreadable-file branch
and the differing-digest branch at concrete inputs. -/
theorem claimC5_witness :
    (download_image md5FF wNet none "g" "g" false [] wFsBad wImg).2 =
      .error .ioError ∧
    ((download_image md5FF wNet none "g" "g" false [] wFsHave wImg).1.requests =
      ["https://i.4cdn.org/g/5.png"] ∧
     (download_image md5FF wNet none "g" "g" false [] wFsHave wImg).2 = .ok ()) := by
  have h1 := (claimC5 md5FF wNet "g" "g" false [] wFsBad wImg hexZeros
    (by decide)).1 (by decide)
  have h2 := (claimC5 md5FF wNet "g" "g" false [] wFsHave wImg hexZeros
    (by decide)).2 [9] (by decide) (by decide)
  exact ⟨by rw [h1], h2⟩

/- ### Claim C6 -/

/-- Claim C6: a user interruption arriving during the chunked streaming
write (modelled as `interrupt = some k` with `k` at most the number of
chunks) leaves NO file at the target path — the partial file is removed
(line 115) — and the step finishes with the re-raised interruption
(line 116). -/
theorem claimC6 :
    ∀ (md5hex : List Nat → String) (net : String → List (List Nat))
      (dest board : String) (keep : Bool) (ledger : List String) (fs : Fs)
      (image : Image) (k : Nat),
      fs (dest ++ "/" ++ (targetName keep ledger image).1) = .absent →
      k ≤ (net (imgURL board image)).length →
      (download_image md5hex net (some k) dest board keep ledger fs image).1.fs
          (dest ++ "/" ++ (targetName keep ledger image).1) = .absent ∧
      (download_image md5hex net (some k) dest board keep ledger fs image).2 =
        .error .interrupted := by
  intro md5hex net dest board keep ledger fs image k hfs hk
  have hs := streamLoop_interrupt (net (imgURL board image)) k hk
  simp [download_image, hfs, hs]

/-- Witness for claim C6: an interrupt during the second chunk of a
two-chunk transfer to an empty filesystem. -/
theorem claimC6_witness :
    ((fun _ => FileSt.absent : Fs) "g/5.png" = .absent ∧
     1 ≤ (wNet "https://i.4cdn.org/g/5.png").length) ∧
    (download_image md5FF wNet (some 1) "g" "g" false [] wFsNone wImg).1.fs
        "g/5.png" = .absent ∧
    (download_image md5FF wNet (some 1) "g" "g" false [] wFsNone wImg).2 =
      .error .interrupted := by
  exact ⟨⟨rfl, by decide⟩,
    claimC6 md5FF wNet "g" "g" false [] wFsNone wImg 1 rfl (by decide)⟩

/- ### Supporting lemmas for the exit-code logic -/

theorem phase1_fst (urls : List String) : (phase1 urls).1 = urls.filter check_url := by
  induction urls with
  | nil => rfl
  | cons u rest ih =>
    simp only [phase1, List.filter_cons]
    cases h : check_url u <;> simp [h, ih]

theorem phase1_snd_zero (urls : List String) :
    (phase1 urls).2 = 0 ↔ ∀ u ∈ urls, check_url u = true := by
  induction urls with
  | nil => simp [phase1]
  | cons u rest ih =>
    cases h : check_url u
    · simp [phase1, h]
    · simp [phase1, h, ih]

theorem phase1_snd_cases (urls : List String) :
    (phase1 urls).2 = 0 ∨ (phase1 urls).2 = 1 := by
  induction urls with
  | nil => exact Or.inl rfl
  | cons u rest ih =>
    cases h : check_url u
    · simp [phase1, h]
    · simpa [phase1, h] using ih

theorem phase2_zero (alive : String → String → Bool) (vs : List String) :
    ∀ ec, phase2 alive vs ec = 0 ↔
      (ec = 0 ∧ ∀ u ∈ vs, alive (parse_url u).1 (parse_url u).2 = true) := by
  induction vs with
  | nil => intro ec; simp [phase2]
  | cons u rest ih =>
    intro ec
    cases h : alive (parse_url u).1 (parse_url u).2
    · simp [phase2, h, ih]
    · simp only [phase2, h, if_pos]
      rw [ih]
      simp [h]

theorem phase2_cases (alive : String → String → Bool) (vs : List String) :
    ∀ ec, ec = 0 ∨ ec = 1 → phase2 alive vs ec = 0 ∨ phase2 alive vs ec = 1 := by
  induction vs with
  | nil => intro ec h; simpa [phase2] using h
  | cons u rest ih =>
    intro ec h
    cases hal : alive (parse_url u).1 (parse_url u).2
    · simp only [phase2, hal]
      exact ih 1 (Or.inr rfl)
    · simp only [phase2, hal]
      exact ih ec h

/- ### Claim C7 -/

/-- Claim C7: without a top-level interrupt, the exit status is 0 iff
every supplied URL is valid and every referenced thread exists, and is
1 otherwise; a top-level interrupt exits with status 130. -/
theorem claimC7 :
    ∀ (alive : String → String → Bool) (urls : List String),
      (scraper_top alive urls false = 0 ↔
        ∀ url ∈ urls, check_url url = true ∧
          alive (parse_url url).1 (parse_url url).2 = true) ∧
      (scraper_top alive urls false = 0 ∨ scraper_top alive urls false = 1) ∧
      scraper_top alive urls true = 130 := by
  intro alive urls
  have hmain : scraper_top alive urls false =
      phase2 alive (phase1 urls).1 (phase1 urls).2 := rfl
  refine ⟨?_, ?_, rfl⟩
  · rw [hmain, phase2_zero, phase1_snd_zero, phase1_fst]
    constructor
    · rintro ⟨hall, halive⟩ url hu
      exact ⟨hall url hu, halive url (List.mem_filter.mpr ⟨hu, hall url hu⟩)⟩
    · intro h
      exact ⟨fun u hu => (h u hu).1,
        fun u hu => (h u (List.mem_filter.mp hu).1).2⟩
  · rw [hmain]
    exact phase2_cases alive (phase1 urls).1 (phase1 urls).2 (phase1_snd_cases urls)

/-- Witness for claim C7: a run with one valid, existing thread exits 0;
the same URL with a dead thread exits 1; an interrupted run exits 130. -/
theorem claimC7_witness :
    scraper_top (fun _ _ => true) ["https://boards.4chan.org/g/thread/123"] false = 0 ∧
    scraper_top (fun _ _ => false) ["https://boards.4chan.org/g/thread/123"] false = 1 ∧
    scraper_top (fun _ _ => true) ["https://boards.4chan.org/g/thread/123"] true = 130 := by
  refine ⟨(claimC7 (fun _ _ => true) _).1.mpr (by decide), ?_,
    (claimC7 (fun _ _ => true) ["https://boards.4chan.org/g/thread/123"]).2.2⟩
  have hc := claimC7 (fun _ _ => false) ["https://boards.4chan.org/g/thread/123"]
  rcases hc.2.1 with h0 | h1
  · have := (hc.1.mp h0) "https://boards.4chan.org/g/thread/123" (by simp)
    exact absurd this.2 (by decide)
  · exact h1

/- ### Claim C8 -/

/-- Claim C8: a thread fetch whose response body is empty signals
thread-not-found carrying exactly the requested `(board, threadId)`
pair; a non-empty body is handed to the JSON reader, whose failure
propagates unhandled and whose success is returned. -/
theorem claimC8 :
    ∀ (T : Type) (net : String → String) (parse : String → Except String T)
      (board tid : String),
      (net (apiURL board tid) = "" →
        get_thread net parse board tid = .error (.threadDoesNotExist board tid)) ∧
      ((net (apiURL board tid)).length ≠ 0 →
        (∀ e, parse (net (apiURL board tid)) = .error e →
          get_thread net parse board tid = .error (.jsonError e)) ∧
        (∀ t, parse (net (apiURL board tid)) = .ok t →
          get_thread net parse board tid = .ok t)) := by
  intro T net parse board tid
  constructor
  · intro h
    simp [get_thread, h]
  · intro h
    constructor
    · intro e he
      simp [get_thread, h, he]
    · intro t ht
      simp [get_thread, h, ht]

/-- Witness for claim C8: empty body, parse success and parse failure on
concrete inputs. -/
theorem claimC8_witness :
    get_thread (fun _ => "") (fun _ => Except.ok (7 : Nat)) "g" "123" =
      .error (.threadDoesNotExist "g" "123") ∧
    get_thread (fun _ => "x") (fun _ => Except.ok (7 : Nat)) "g" "123" = .ok 7 ∧
    get_thread (fun _ => "x") (fun s => (Except.error s : Except String Nat)) "g" "123" =
      .error (.jsonError "x") := by
  exact ⟨(claimC8 Nat (fun _ => "") (fun _ => Except.ok 7) "g" "123").1 rfl,
    ((claimC8 Nat (fun _ => "x") (fun _ => Except.ok 7) "g" "123").2 (by decide)).2 7 rfl,
    ((claimC8 Nat (fun _ => "x") (fun s => Except.error s) "g" "123").2 (by decide)).1 "x" rfl⟩

/- ### Claim C9 -/

/-- Claim C9: constructing a scraper for a URL whose thread does not
exist (empty API body) still creates the directory `<board>/<threadId>`
— the `os.makedirs` of lines 22-23 runs before the `__get_thread` of
line 27, and nothing rolls it back when `ThreadDoesNotExist` is
raised. -/
theorem claimC9 :
    ∀ (T : Type) (net : String → String) (parse : String → Except String T)
      (dirs : List String) (url board tid : String),
      parse_url url = (board, tid) →
      net (apiURL board tid) = "" →
      (board ++ "/" ++ tid) ∈ (scraperInit net parse dirs url).1 ∧
      (scraperInit net parse dirs url).2 = .error (.threadDoesNotExist board tid) := by
  intro T net parse dirs url board tid hp hn
  simp only [scraperInit, hp]
  constructor
  · split
    · assumption
    · simp
  · simp [get_thread, hn]

/-- Witness for claim C9: a concrete dead thread's directory is present
after the failed construction. -/
theorem claimC9_witness :
    ("g/123" : String) ∈
      (scraperInit (fun _ => "") (fun _ => Except.ok (7 : Nat)) []
        "https://boards.4chan.org/g/thread/123").1 ∧
    (scraperInit (fun _ => "") (fun _ => Except.ok (7 : Nat)) []
        "https://boards.4chan.org/g/thread/123").2 =
      .error (.threadDoesNotExist "g" "123") := by
  exact claimC9 Nat (fun _ => "") (fun _ => Except.ok 7) []
    "https://boards.4chan.org/g/thread/123" "g" "123" (by decide) rfl
